import Mathlib

/-!
Shallow embedding of `src/fetch_oil_prices.py` (class `ChinaOilPriceAPI`).

The Python script fetches one HTML page per province, extracts fuel prices
for the grades "92", "95", "98" and "0" (diesel) together with a price
adjustment trend, and aggregates per-province outcomes into one report.

Modelling conventions:
- Python dicts keyed by strings are association lists `List (String × String)`
  (or `List (String × ProvinceData)`) together with `dictInsertD` / `dictGet`
  realising Python's overwrite-on-assign and lookup semantics.
- The BeautifulSoup document is abstracted by `FetchedDoc`, whose fields carry
  exactly the pieces of the DOM the script reads: the `#youjia > dl` pairs
  (dt text, dd text), the texts of `.oil-price, .price-item, table tr`
  elements, the texts of the divs under `#youjiaCont`, and the raw html string
  used by the regex fallbacks.
- The regular expressions of the script are implemented as executable
  leftmost-match scanners with the relevant Python `re` semantics:
  lazy gaps (`.*?`) never cross a newline nor overshoot the first position
  where the rest of the pattern matches, and greedy character classes
  (`\d+`, `[\d.]+`, `\s*`) take maximal runs.
- Python floats are modelled by `ℚ`; `float(s)` on a `[\d.]+` candidate is
  `pyFloat?`, which fails (raising ValueError in Python) exactly when the
  string has no digit or more than one dot.
- `datetime.now()` timestamps are an explicit `now : String` parameter.
- Network effects are an environment: each province receives either a
  `FetchResponse` (status + document, timeout, request error) or a raised
  exception, through `EntityBehavior`.
-/

/-- Characters allowed by the regex class `[\d.]`. -/
def isNumChar (c : Char) : Bool := c.isDigit || c == '.'

/-- Leftmost greedy `\d+` match: the first maximal digit run of the string,
as used by `re.search(r'(\d+)', oil_type)`. -/
def firstDigitRun : List Char → Option String
  | [] => none
  | c :: rest =>
    if c.isDigit then some (String.mk (c :: rest.takeWhile Char.isDigit))
    else firstDigitRun rest

/-- The lazy tail `.*?([\d.]+)元` of the price patterns, scanned from a fixed
position: extend the gap one character at a time (never across a newline)
until a maximal nonempty `[\d.]+` run immediately followed by `元` is found;
the run is the captured group. -/
def scanGroup : List Char → Option String
  | [] => none
  | c :: rest =>
    let run := (c :: rest).takeWhile isNumChar
    let after := (c :: rest).dropWhile isNumChar
    if run ≠ [] ∧ after.headD ' ' == '元' then some (String.mk run)
    else if c == '\n' then none
    else scanGroup rest

/-- Leftmost match of a pattern `<pre>.*?([\d.]+)元` against a character list:
for each start position in order, require the literal prefix `pre` and then a
`scanGroup` match; returns the captured `[\d.]+` group. -/
def searchPricePat (pre : List Char) : List Char → Option String
  | [] => none
  | c :: rest =>
    if pre.isPrefixOf (c :: rest) then
      match scanGroup ((c :: rest).drop pre.length) with
      | some g => some g
      | none => searchPricePat pre rest
    else searchPricePat pre rest

/-- Value of a digit character. -/
def digitVal (c : Char) : ℕ := c.toNat - 48

/-- Natural number denoted by a digit list (most significant first). -/
def natOfDigits (l : List Char) : ℕ := l.foldl (fun a c => 10 * a + digitVal c) 0

/-- Python `float(s)` for a candidate produced by `[\d.]+`: succeeds iff the
string contains at least one digit and at most one dot, yielding the exact
decimal value as a rational. -/
def pyFloat? (s : String) : Option ℚ :=
  let cs := s.data
  if cs.all isNumChar ∧ cs.any Char.isDigit ∧ cs.count '.' ≤ 1 then
    let ip := cs.takeWhile (fun c => c ≠ '.')
    let fp := (cs.dropWhile (fun c => c ≠ '.')).drop 1
    some ((natOfDigits ip : ℚ) + (natOfDigits fp : ℚ) / (10 : ℚ) ^ fp.length)
  else none

/-- Decimal rendering of a nonnegative rational whose denominator divides a
power of ten, following Python's `str` on such a float: an integral value is
rendered with a trailing `.0`, otherwise the shortest exact decimal is used. -/
def decRepr (q : ℚ) : String :=
  if q.den = 1 then toString q.num ++ ".0"
  else
    match (List.range 40).find? (fun k => (q * (10 : ℚ) ^ k).den = 1) with
    | some k =>
      let m := (q * (10 : ℚ) ^ k).num.toNat
      let ip := m / 10 ^ k
      let fp := m % 10 ^ k
      let fpStr := toString fp
      let pad := String.mk (List.replicate (k - fpStr.length) '0')
      toString ip ++ "." ++ pad ++ fpStr
    | none => toString q.num ++ "/" ++ toString q.den

/-- Python dict assignment `d[k] = v` on an association list: overwrite the
existing binding for `k` in place, else append a new binding. -/
def dictInsertD {α : Type} : List (String × α) → String → α → List (String × α)
  | [], k, v => [(k, v)]
  | (k', v') :: rest, k, v =>
    if k' = k then (k, v) :: rest else (k', v') :: dictInsertD rest k v

/-- Python dict lookup `d.get(k)` on an association list. -/
def dictGet {α : Type} (d : List (String × α)) (k : String) : Option α :=
  (d.find? (fun p => p.1 = k)).map (fun p => p.2)

/-- The sub-pattern `\d+月\d+日\d+时调整` matched at a fixed position: three
maximal nonempty digit runs separated by `月` and `日` and closed by `时调整`;
returns the matched text. -/
def parseAdjDate (l : List Char) : Option String :=
  let d1 := l.takeWhile Char.isDigit
  let r1 := l.dropWhile Char.isDigit
  if d1 = [] then none else
  match r1 with
  | '月' :: r2 =>
    let d2 := r2.takeWhile Char.isDigit
    let r3 := r2.dropWhile Char.isDigit
    if d2 = [] then none else
    match r3 with
    | '日' :: r4 =>
      let d3 := r4.takeWhile Char.isDigit
      let r5 := r4.dropWhile Char.isDigit
      if d3 = [] then none else
      if ['时', '调', '整'].isPrefixOf r5 then
        some (String.mk (d1 ++ '月' :: d2 ++ '日' :: d3 ++ ['时', '调', '整']))
      else none
    | _ => none
  | _ => none

/-- Lazy gap `.*?` before `parseAdjDate`, from a fixed position: the shortest
newline-free gap after which the date pattern matches; returns the gap and the
date match. -/
def adjGapScan : List Char → Option (List Char × String)
  | [] => none
  | c :: rest =>
    match parseAdjDate (c :: rest) with
    | some m => some ([], m)
    | none =>
      if c == '\n' then none
      else
        match adjGapScan rest with
        | some (g, m) => some (c :: g, m)
        | none => none

/-- Leftmost match of `下次油价.*?(\d+月\d+日\d+时调整)` over the raw html;
returns the whole match (`group(0)`). -/
def searchNextAdjLazy : List Char → Option String
  | [] => none
  | c :: rest =>
    if "下次油价".data.isPrefixOf (c :: rest) then
      match adjGapScan ((c :: rest).drop 4) with
      | some (g, m) => some ("下次油价" ++ String.mk g ++ m)
      | none => searchNextAdjLazy rest
    else searchNextAdjLazy rest

/-- Leftmost match of `下次油价(\d+月\d+日\d+时调整)` (no gap) over the
adjustment text; returns the whole match (`group(0)`). -/
def searchNextAdjDirect : List Char → Option String
  | [] => none
  | c :: rest =>
    if "下次油价".data.isPrefixOf (c :: rest) then
      match parseAdjDate ((c :: rest).drop 4) with
      | some m => some ("下次油价" ++ m)
      | none => searchNextAdjDirect rest
    else searchNextAdjDirect rest

/-- The tail `\s*([\d.]+)元` of the trend patterns, at a fixed position:
maximal whitespace run, then a maximal nonempty `[\d.]+` run immediately
followed by `元`; returns the captured numeric group. -/
def trendAmountAt (l : List Char) : Option String :=
  let afterWs := l.dropWhile Char.isWhitespace
  let run := afterWs.takeWhile isNumChar
  let rest := afterWs.dropWhile isNumChar
  if run ≠ [] ∧ rest.headD ' ' == '元' then some (String.mk run) else none

/-- Leftmost match of `预计(<w1>|<w2>)\s*([\d.]+)元`: at each position require
the literal `预计`, then the first alternative that matches of `w1`, `w2`,
then the amount tail; returns the direction word and the amount group. -/
def searchTrendPat (w1 w2 : String) : List Char → Option (String × String)
  | [] => none
  | c :: rest =>
    if "预计".data.isPrefixOf (c :: rest) then
      let afterYu := (c :: rest).drop 2
      if w1.data.isPrefixOf afterYu then
        match trendAmountAt (afterYu.drop w1.data.length) with
        | some a => some (w1, a)
        | none => searchTrendPat w1 w2 rest
      else if w2.data.isPrefixOf afterYu then
        match trendAmountAt (afterYu.drop w2.data.length) with
        | some a => some (w2, a)
        | none => searchTrendPat w1 w2 rest
      else searchTrendPat w1 w2 rest
    else searchTrendPat w1 w2 rest

/-- The r'预计(上调|下调)\s*([\d.]+)元' search of `parse_adjustment_info`. -/
def searchTrend1 (s : String) : Option (String × String) :=
  searchTrendPat "上调" "下调" s.data

/-- The r'预计(涨|跌)\s*([\d.]+)元' fallback search of
`parse_adjustment_info`. -/
def searchTrend2 (s : String) : Option (String × String) :=
  searchTrendPat "涨" "跌" s.data

/-- Python `str.strip()`: remove leading and trailing whitespace. -/
def pyStrip (s : String) : String :=
  String.mk
    (((s.data.dropWhile Char.isWhitespace).reverse.dropWhile
        Char.isWhitespace).reverse)

/-- The abstracted BeautifulSoup document of one fetched page: exactly the
pieces of the DOM and raw text that `fetch_province_price` and
`parse_adjustment_info` read. -/
structure FetchedDoc where
  youjiaDls : List (Option String × Option String)
  fallbackTexts : List String
  youjiaContDivs : Option (List String)
  html : String

/-- Outcome of the `requests.get` call for one province: a response with a
status code and (parsed) body, a timeout, or another request exception. -/
inductive FetchResponse where
  | ok (status_code : ℕ) (doc : FetchedDoc)
  | timeout
  | requestError (detail : String)

/-- Behaviour of one province's processing unit as seen by
`fetch_all_prices`: either `fetch_province_price` runs on a response, or an
exception escapes to the outer `try` of the loop. -/
inductive EntityBehavior where
  | responds (r : FetchResponse)
  | raises (msg : String)

/-- The `trend` dictionary: direction, amount and description. -/
structure Trend where
  direction : String
  amount : ℚ
  description : String
deriving DecidableEq

/-- The dictionary returned by `parse_adjustment_info`. -/
structure AdjustmentInfo where
  next_adjustment : Option String
  trend : Trend
deriving DecidableEq

/-- The `prices` dictionary with its four fixed grade keys "92", "95", "98"
and "0"; values are candidate strings, with `"--"` as the unset default. -/
structure PriceSet where
  p92 : String
  p95 : String
  p98 : String
  p0 : String
deriving DecidableEq

/-- The success dictionary built by `fetch_province_price`. -/
structure SuccessData where
  name : String
  code : String
  prices : PriceSet
  unit : String
  update_time : String
  next_adjustment : Option String
  trend : Trend
deriving DecidableEq

/-- The nested `error` dictionary of `_create_error_data`. -/
structure ErrorInfo where
  code : String
  message : String
  retry_after : String
deriving DecidableEq

/-- The error dictionary built by `_create_error_data`. -/
structure ErrorData where
  name : String
  code : String
  error : ErrorInfo
  update_time : String
deriving DecidableEq

/-- A per-province result dictionary: its `status` key is `"success"` or
`"error"`, with the corresponding payload. -/
inductive ProvinceData where
  | success (d : SuccessData)
  | error (d : ErrorData)
deriving DecidableEq

/-- The `status` field of a per-province result dictionary. -/
def pdStatus : ProvinceData → String
  | .success _ => "success"
  | .error _ => "error"

/-- The check `province_data['status'] == 'success'`. -/
def pdIsSuccess (d : ProvinceData) : Bool := pdStatus d == "success"

/-- `_create_error_data`: the uniform error dictionary, with the fixed error
code string "FETCH_FAILED" and the free-text message. -/
def _create_error_data (province_name province_code error_message now : String) :
    ProvinceData :=
  .error
    { name := province_name
      code := province_code
      error :=
        { code := "FETCH_FAILED", message := error_message, retry_after := now }
      update_time := now }

/-- The default trend dictionary initialised at the top of
`parse_adjustment_info` (direction "stable", amount 0, description 价格稳定),
also returned by its exception handler. -/
def defaultTrend : Trend :=
  { direction := "stable", amount := 0, description := "价格稳定" }

/-- The `adjustment_text` computed by `parse_adjustment_info`: the stripped
text of the second div under `#youjiaCont` when there are at least two divs,
else the whole match of `下次油价.*?(\d+月\d+日\d+时调整)` on the raw html,
else the empty string. -/
def adjustmentTextOf (doc : FetchedDoc) : String :=
  let t0 :=
    match doc.youjiaContDivs with
    | some divs =>
      match divs.get? 1 with
      | some d => pyStrip d
      | none => ""
    | none => ""
  if t0 = "" then
    match searchNextAdjLazy doc.html.data with
    | some m => m
    | none => ""
  else t0

/-- `parse_adjustment_info`: extracts the next-adjustment phrase and the
trend from the adjustment text.  The two exception paths of the source are
explicit: a `ValueError` from `float` on an all-dots amount, and the
`AttributeError` raised by calling `.groups()` on the tuple the code builds
when only the second trend pattern matches; both are caught by the
surrounding `except` and yield the default dictionary with no
next-adjustment. -/
def parse_adjustment_info (doc : FetchedDoc) : AdjustmentInfo :=
  let adjustment_text := adjustmentTextOf doc
  let next_adjustment := searchNextAdjDirect adjustment_text.data
  match searchTrend1 adjustment_text with
  | some (w, a) =>
    match pyFloat? a with
    | some amount =>
      let direction := if w = "上调" ∨ w = "涨" then "up" else "down"
      let trend_desc := if direction = "up" then "上调" else "下调"
      { next_adjustment := next_adjustment
        trend :=
          { direction := direction
            amount := amount
            description := "预计" ++ trend_desc ++ decRepr amount ++ "元/升" } }
    | none => { next_adjustment := none, trend := defaultTrend }
  | none =>
    match searchTrend2 adjustment_text with
    | some _ => { next_adjustment := none, trend := defaultTrend }
    | none => { next_adjustment := next_adjustment, trend := defaultTrend }

/-- Strategy 1 of `fetch_province_price`: over the `#youjia > dl` elements,
for each dl with both a dt and a dd, key the stripped dd text by the first
digit run of the stripped dt text. -/
def method1Entries (dls : List (Option String × Option String)) :
    List (String × String) :=
  dls.foldl
    (fun entries dl =>
      match dl.1, dl.2 with
      | some dt, some dd =>
        match firstDigitRun (pyStrip dt).data with
        | some oil_key => dictInsertD entries oil_key (pyStrip dd)
        | none => entries
      | _, _ => entries)
    []

/-- The ordered pattern list of strategy 2, with its grade keys. -/
def pricePatterns : List (List Char × String) :=
  [("92#".data, "92"), ("95#".data, "95"), ("98#".data, "98"),
   ("0#".data, "0"), ("柴油".data, "0")]

/-- One element of strategy 2: try every pattern on the element's text and
record the captured group plus `元` for each grade not yet present. -/
def method2Element (entries : List (String × String)) (text : String) :
    List (String × String) :=
  pricePatterns.foldl
    (fun es pk =>
      match searchPricePat pk.1 text.data with
      | some g => if dictGet es pk.2 = none then dictInsertD es pk.2 (g ++ "元") else es
      | none => es)
    entries

/-- Strategy 2 of `fetch_province_price`: scan the texts of the fallback
elements (`.oil-price, .price-item, table tr`) with the pattern cascade. -/
def method2Entries (texts : List String) : List (String × String) :=
  texts.foldl method2Element []

/-- The `entries` dict after both strategies: strategy 2 runs only when
strategy 1 produced nothing at all (`if not entries`). -/
def entriesOf (doc : FetchedDoc) : List (String × String) :=
  let e1 := method1Entries doc.youjiaDls
  if e1 = [] then method2Entries doc.fallbackTexts else e1

/-- The `prices` dict: every grade key present, defaulted to "--". -/
def priceSetOf (doc : FetchedDoc) : PriceSet :=
  let entries := entriesOf doc
  { p92 := (dictGet entries "92").getD "--"
    p95 := (dictGet entries "95").getD "--"
    p98 := (dictGet entries "98").getD "--"
    p0 := (dictGet entries "0").getD "--" }

/-- The check `any(price != '--' for price in prices.values())`. -/
def anyValid (p : PriceSet) : Bool :=
  !(p.p92 == "--") || !(p.p95 == "--") || !(p.p98 == "--") || !(p.p0 == "--")

/-- The body of `fetch_province_price` after a status-200 response: extract
entries and the adjustment info, build the prices dict, and classify. -/
def processDoc (province_name province_code : String) (doc : FetchedDoc)
    (now : String) : ProvinceData :=
  let adjustment_info := parse_adjustment_info doc
  let prices := priceSetOf doc
  if anyValid prices then
    .success
      { name := province_name
        code := province_code
        prices := prices
        unit := "元/升"
        update_time := now
        next_adjustment := adjustment_info.next_adjustment
        trend := adjustment_info.trend }
  else _create_error_data province_name province_code "未解析到油价数据" now

/-- `fetch_province_price`: classify the response and, on a 200 response,
run extraction; the three error paths mirror the `except` clauses and the
status check of the source. -/
def fetch_province_price (province_name province_code : String)
    (resp : FetchResponse) (now : String) : ProvinceData :=
  match resp with
  | .ok status_code doc =>
    if status_code ≠ 200 then
      _create_error_data province_name province_code
        ("HTTP状态码: " ++ toString status_code) now
    else processDoc province_name province_code doc now
  | .timeout => _create_error_data province_name province_code "请求超时" now
  | .requestError e =>
    _create_error_data province_name province_code ("网络请求失败: " ++ e) now

/-- One iteration of the loop in `fetch_all_prices` for a single province:
either `fetch_province_price` returns normally, or the raised exception is
caught by the loop's `except` and converted to the uniform error dictionary
with a 抓取异常 message. -/
def runOne (now : String) (env : String → String → EntityBehavior)
    (province_name province_code : String) : ProvinceData :=
  match env province_name province_code with
  | .responds r => fetch_province_price province_name province_code r now
  | .raises e =>
    _create_error_data province_name province_code ("抓取异常: " ++ e) now

/-- Round a rational to the nearest integer, ties to even, as Python's
`round` does. -/
def roundHalfEven (q : ℚ) : ℤ :=
  let f := ⌊q⌋
  if q - f < 1 / 2 then f
  else if 1 / 2 < q - f then f + 1
  else if f % 2 = 0 then f else f + 1

/-- Python `round(x, nd)` on a rational model of the float `x`. -/
def pyRound (nd : ℕ) (q : ℚ) : ℚ :=
  (roundHalfEven (q * (10 : ℚ) ^ nd) : ℚ) / (10 : ℚ) ^ nd

/-- The `statistics` dictionary of the final output. -/
structure Statistics where
  total_provinces : ℕ
  success_count : ℕ
  error_count : ℤ
  success_rate : ℚ
deriving DecidableEq

/-- The final output dictionary of a run. -/
structure Report where
  status : String
  last_updated : String
  data_source : String
  version : String
  statistics : Statistics
  data : List (String × ProvinceData)

/-- `_create_final_output`: derive the overall status and the statistics
from the collected data and the success counter. -/
def _create_final_output (total_provinces : ℕ)
    (all_data : List (String × ProvinceData)) (success_count : ℕ)
    (now : String) : Report :=
  let status := if success_count > 0 then "success" else "error"
  let status :=
    if 0 < success_count ∧ success_count < total_provinces then
      "partial_success"
    else status
  { status := status
    last_updated := now
    data_source := "www.qiyoujiage.com"
    version := "1.0"
    statistics :=
      { total_provinces := total_provinces
        success_count := success_count
        error_count := (total_provinces : ℤ) - (success_count : ℤ)
        success_rate :=
          pyRound 2 ((success_count : ℚ) / (total_provinces : ℚ) * 100) }
    data := all_data }

/-- One iteration of the `fetch_all_prices` loop acting on the accumulated
`(all_data, success_count)` state. -/
def fetchAllStep (now : String) (env : String → String → EntityBehavior)
    (acc : List (String × ProvinceData) × ℕ) (p : String × String) :
    List (String × ProvinceData) × ℕ :=
  let d := runOne now env p.1 p.2
  (dictInsertD acc.1 p.1 d, acc.2 + if pdIsSuccess d then 1 else 0)

/-- `fetch_all_prices`: process every `(name, code)` pair of the province
mapping in order, recording one outcome per province and counting successes,
then build the final output.  The province mapping is a Python dict, so its
key list has no duplicates; the model takes it as a list of pairs. -/
def fetch_all_prices (provinces : List (String × String))
    (env : String → String → EntityBehavior) (now : String) : Report :=
  let r := provinces.foldl (fetchAllStep now env) ([], 0)
  _create_final_output provinces.length r.1 r.2 now

/-- Modelled from the spec: the "first decimal-looking substring" of a
candidate string (spec §4.2, numeric normalization) — the first maximal
`[\d.]+` run. -/
def specFirstDecimal : List Char → Option String
  | [] => none
  | c :: rest =>
    if isNumChar c then some (String.mk (c :: rest.takeWhile isNumChar))
    else specFirstDecimal rest

/-- Modelled from the spec: a candidate string counts as a "parsed strictly
positive price value" when its first decimal-looking substring parses as a
float with a strictly positive value. -/
def specParsedPositive (s : String) : Bool :=
  match specFirstDecimal s.data with
  | some g =>
    match pyFloat? g with
    | some q => decide (0 < q)
    | none => false
  | none => false

/-- Modelled from the spec: at least one grade of the prices dict has a
parsed strictly positive price value. -/
def specAnyPositive (p : PriceSet) : Bool :=
  specParsedPositive p.p92 || specParsedPositive p.p95 ||
    specParsedPositive p.p98 || specParsedPositive p.p0

/-- Number of Success outcomes in collected data. -/
def countSuccessData (d : List (String × ProvinceData)) : ℕ :=
  d.countP (fun p => pdIsSuccess p.2)

/-- Number of Failure outcomes in collected data. -/
def countErrorData (d : List (String × ProvinceData)) : ℕ :=
  d.countP (fun p => pdStatus p.2 == "error")

/-- The error-code invariant: every error outcome carries the fixed code
string "FETCH_FAILED". -/
def errCodeOK : ProvinceData → Bool
  | .success _ => true
  | .error ed => ed.error.code == "FETCH_FAILED"

/-- Fixture: a page whose structured `#youjia > dl` lookup yields grade 92. -/
def docOK : FetchedDoc := ⟨[(some "92#汽油", some "7.82元")], [], none, ""⟩

/-- Fixture: a page whose only grade candidate is the zero-valued string
"0". -/
def docZero : FetchedDoc := ⟨[(some "92#", some "0")], [], none, ""⟩

/-- Fixture: a page with no grade candidates at all. -/
def docEmpty : FetchedDoc := ⟨[], [], none, ""⟩

/-- Fixture: the structured lookup yields grade 92 while the fallback texts
would yield grade 95. -/
def docStructAndFallback : FetchedDoc :=
  ⟨[(some "92#汽油", some "7.82元")], ["95#汽油 8.31元"], none, ""⟩

/-- Fixture: a structured dd text with no decimal substring at all. -/
def docVerbatim : FetchedDoc := ⟨[(some "92#汽油", some "价格未知")], [], none, ""⟩

/-- Fixture: a three-province mapping. -/
def provinces3 : List (String × String) := [("A", "a"), ("B", "b"), ("C", "c")]

/-- Fixture environment: province A raises an exception, every other
province gets a well-formed 200 response. -/
def envMixed : String → String → EntityBehavior := fun n _ =>
  if n = "A" then .raises "boom" else .responds (.ok 200 docOK)

/-! Helper lemmas about the association-list dictionary operations. -/

theorem dictGet_nil {α : Type} (k : String) :
    dictGet ([] : List (String × α)) k = none := rfl

theorem dictGet_cons {α : Type} (p : String × α) (l : List (String × α))
    (k : String) :
    dictGet (p :: l) k = if p.1 = k then some p.2 else dictGet l k := by
  by_cases h : p.1 = k <;> simp [dictGet, List.find?, h]

theorem dictGet_insert {α : Type} (d : List (String × α)) (k k' : String)
    (v : α) :
    dictGet (dictInsertD d k v) k' = if k' = k then some v else dictGet d k' := by
  induction d with
  | nil =>
    rcases eq_or_ne k' k with h | h
    · subst h; simp [dictInsertD, dictGet_cons]
    · have h' : ¬k = k' := fun hc => h hc.symm
      simp [dictInsertD, dictGet_cons, dictGet_nil, h, h']
  | cons p rest ih =>
    by_cases h1 : p.1 = k
    · simp only [dictInsertD, if_pos h1, dictGet_cons]
      rcases eq_or_ne k' k with h | h
      · subst h; simp
      · have h2 : ¬p.1 = k' := fun hc => h ((hc.symm.trans h1).symm ▸ rfl)
        rw [if_neg (fun hc : k = k' => h hc.symm), if_neg h, if_neg h2]
    · simp only [dictInsertD, if_neg h1, dictGet_cons, ih]
      by_cases h2 : p.1 = k'
      · have h : ¬k' = k := fun hc => h1 (h2.trans hc)
        simp [h2, h]
      · simp [h2]

theorem mem_keys_insert {α : Type} (d : List (String × α)) (k k' : String)
    (v : α) :
    k' ∈ (dictInsertD d k v).map Prod.fst ↔ k' = k ∨ k' ∈ d.map Prod.fst := by
  induction d with
  | nil => simp [dictInsertD]
  | cons p rest ih =>
    by_cases h1 : p.1 = k
    · subst h1
      simp only [dictInsertD, eq_self_iff_true, if_true]
      simp only [List.map_cons, List.mem_cons]
      tauto
    · simp only [dictInsertD, if_neg h1, List.map_cons, List.mem_cons, ih]
      tauto

theorem nodup_keys_insert {α : Type} (d : List (String × α)) (k : String)
    (v : α) (h : (d.map Prod.fst).Nodup) :
    ((dictInsertD d k v).map Prod.fst).Nodup := by
  induction d with
  | nil => simp [dictInsertD]
  | cons p rest ih =>
    simp only [List.map_cons, List.nodup_cons] at h
    by_cases h1 : p.1 = k
    · subst h1
      simp only [dictInsertD, eq_self_iff_true, if_true]
      simp only [List.map_cons, List.nodup_cons]
      exact ⟨h.1, h.2⟩
    · simp only [dictInsertD, if_neg h1, List.map_cons, List.nodup_cons]
      refine ⟨fun hc => ?_, ih h.2⟩
      rcases (mem_keys_insert rest k p.1 v).mp hc with h2 | h2
      · exact h1 h2
      · exact h.1 h2

theorem insert_eq_append {α : Type} (d : List (String × α)) (k : String)
    (v : α) (h : k ∉ d.map Prod.fst) : dictInsertD d k v = d ++ [(k, v)] := by
  induction d with
  | nil => simp [dictInsertD]
  | cons p rest ih =>
    simp only [List.map_cons, List.mem_cons] at h
    push_neg at h
    have h1 : ¬p.1 = k := fun hc => h.1 hc.symm
    simp [dictInsertD, h1, ih h.2]

theorem dictGet_ne_nil {α : Type} (d : List (String × α)) (k : String) (v : α)
    (h : dictGet d k = some v) : d ≠ [] := by
  intro hc
  subst hc
  simp [dictGet_nil] at h

theorem dictGet_eq_none {α : Type} (d : List (String × α)) (k : String) :
    dictGet d k = none ↔ k ∉ d.map Prod.fst := by
  induction d with
  | nil => simp [dictGet_nil]
  | cons p rest ih =>
    rw [dictGet_cons]
    by_cases h1 : p.1 = k
    · simp [h1]
    · simp only [if_neg h1, ih, List.map_cons, List.mem_cons]
      constructor
      · intro hn hc
        rcases hc with hc | hc
        · exact h1 hc.symm
        · exact hn hc
      · intro hn hc
        exact hn (Or.inr hc)

theorem dictGet_map_of_nodup (l : List (String × String))
    (g : String → String → ProvinceData) (n c : String)
    (hnd : (l.map Prod.fst).Nodup) (hm : (n, c) ∈ l) :
    dictGet (l.map (fun p => (p.1, g p.1 p.2))) n = some (g n c) := by
  induction l with
  | nil => cases hm
  | cons p rest ih =>
    simp only [List.map_cons, List.nodup_cons] at hnd
    rw [List.map_cons, dictGet_cons]
    rcases List.mem_cons.mp hm with h | h
    · subst h
      simp
    · have hne : ¬p.1 = n := fun hc =>
        hnd.1 (hc ▸ List.mem_map.mpr ⟨(n, c), h, rfl⟩)
      rw [if_neg hne]
      exact ih hnd.2 h

/-! Helper lemmas about the collection loop of `fetch_all_prices`. -/

theorem foldl_keys_mem (now : String) (env : String → String → EntityBehavior)
    (l : List (String × String)) (acc : List (String × ProvinceData) × ℕ)
    (k : String) :
    k ∈ (l.foldl (fetchAllStep now env) acc).1.map Prod.fst ↔
      k ∈ acc.1.map Prod.fst ∨ k ∈ l.map Prod.fst := by
  induction l generalizing acc with
  | nil => simp
  | cons p rest ih =>
    rw [List.foldl_cons, ih]
    simp only [fetchAllStep, mem_keys_insert, List.map_cons, List.mem_cons]
    tauto

theorem foldl_keys_nodup (now : String)
    (env : String → String → EntityBehavior) (l : List (String × String))
    (acc : List (String × ProvinceData) × ℕ)
    (h : (acc.1.map Prod.fst).Nodup) :
    ((l.foldl (fetchAllStep now env) acc).1.map Prod.fst).Nodup := by
  induction l generalizing acc with
  | nil => exact h
  | cons p rest ih =>
    rw [List.foldl_cons]
    exact ih _ (nodup_keys_insert _ _ _ h)

theorem foldl_nodup_eq (now : String) (env : String → String → EntityBehavior)
    (l : List (String × String)) (acc : List (String × ProvinceData) × ℕ)
    (hnd : (l.map Prod.fst).Nodup)
    (hdisj : ∀ k ∈ l.map Prod.fst, k ∉ acc.1.map Prod.fst) :
    l.foldl (fetchAllStep now env) acc =
      (acc.1 ++ l.map (fun p => (p.1, runOne now env p.1 p.2)),
       acc.2 + l.countP (fun p => pdIsSuccess (runOne now env p.1 p.2))) := by
  induction l generalizing acc with
  | nil => simp
  | cons p rest ih =>
    simp only [List.map_cons, List.nodup_cons] at hnd
    have hp : p.1 ∉ acc.1.map Prod.fst := by
      apply hdisj
      simp
    rw [List.foldl_cons]
    have hstep : fetchAllStep now env acc p =
        (acc.1 ++ [(p.1, runOne now env p.1 p.2)],
         acc.2 + if pdIsSuccess (runOne now env p.1 p.2) then 1 else 0) := by
      simp only [fetchAllStep, insert_eq_append _ _ _ hp]
    rw [hstep, ih _ hnd.2]
    · simp only [List.append_assoc, List.singleton_append, List.map_cons,
        List.countP_cons, Prod.mk.injEq]
      exact ⟨trivial, by omega⟩
    · intro k hk
      simp only [List.map_append, List.map_cons, List.map_nil,
        List.mem_append, List.mem_cons]
      rintro (hc | hc)
      · exact hdisj k (by simp [hk]) hc
      · rcases hc with hc | hc
        · exact hnd.1 (hc ▸ hk)
        · cases hc

theorem foldl_count_le (now : String) (env : String → String → EntityBehavior)
    (l : List (String × String)) (acc : List (String × ProvinceData) × ℕ) :
    (l.foldl (fetchAllStep now env) acc).2 ≤ acc.2 + l.length := by
  induction l generalizing acc with
  | nil => simp
  | cons p rest ih =>
    rw [List.foldl_cons]
    refine (ih _).trans ?_
    simp only [fetchAllStep, List.length_cons]
    split <;> omega


/-! Unfolding equations for the pattern-matching definitions. -/

theorem fetch_province_price_ok (n c now : String) (st : ℕ)
    (doc : FetchedDoc) :
    fetch_province_price n c (.ok st doc) now =
      (if st ≠ 200 then
        _create_error_data n c ("HTTP状态码: " ++ toString st) now
      else processDoc n c doc now) := rfl

theorem fetch_province_price_timeout (n c now : String) :
    fetch_province_price n c .timeout now =
      _create_error_data n c "请求超时" now := rfl

theorem fetch_province_price_requestError (n c now e : String) :
    fetch_province_price n c (.requestError e) now =
      _create_error_data n c ("网络请求失败: " ++ e) now := rfl

theorem runOne_responds (now : String)
    (env : String → String → EntityBehavior) (n c : String)
    (r : FetchResponse) (henv : env n c = .responds r) :
    runOne now env n c = fetch_province_price n c r now := by
  unfold runOne
  rw [henv]

theorem runOne_raises (now : String)
    (env : String → String → EntityBehavior) (n c e : String)
    (henv : env n c = .raises e) :
    runOne now env n c = _create_error_data n c ("抓取异常: " ++ e) now := by
  unfold runOne
  rw [henv]

theorem create_final_output_status (t : ℕ)
    (ad : List (String × ProvinceData)) (s : ℕ) (now : String) :
    (_create_final_output t ad s now).status =
      (if 0 < s ∧ s < t then "partial_success"
       else if s > 0 then "success" else "error") := rfl

theorem create_final_output_data (t : ℕ)
    (ad : List (String × ProvinceData)) (s : ℕ) (now : String) :
    (_create_final_output t ad s now).data = ad := rfl

theorem create_final_output_statistics (t : ℕ)
    (ad : List (String × ProvinceData)) (s : ℕ) (now : String) :
    (_create_final_output t ad s now).statistics =
      { total_provinces := t
        success_count := s
        error_count := (t : ℤ) - (s : ℤ)
        success_rate := pyRound 2 ((s : ℚ) / (t : ℚ) * 100) } := rfl

theorem fetch_all_prices_eq (provinces : List (String × String))
    (env : String → String → EntityBehavior) (now : String) :
    fetch_all_prices provinces env now =
      _create_final_output provinces.length
        (provinces.foldl (fetchAllStep now env) ([], 0)).1
        (provinces.foldl (fetchAllStep now env) ([], 0)).2 now := rfl

theorem fetch_all_prices_nodup_eq (provinces : List (String × String))
    (env : String → String → EntityBehavior) (now : String)
    (hnd : (provinces.map Prod.fst).Nodup) :
    fetch_all_prices provinces env now =
      _create_final_output provinces.length
        (provinces.map (fun p => (p.1, runOne now env p.1 p.2)))
        (provinces.countP (fun p => pdIsSuccess (runOne now env p.1 p.2)))
        now := by
  rw [fetch_all_prices_eq,
    foldl_nodup_eq now env provinces ([], 0) hnd (by simp)]
  simp

theorem errCodeOK_fetch_province_price (n c now : String)
    (r : FetchResponse) :
    errCodeOK (fetch_province_price n c r now) = true := by
  cases r with
  | ok st doc =>
    rw [fetch_province_price_ok]
    by_cases hst : st ≠ 200
    · rw [if_pos hst]; rfl
    · rw [if_neg hst]
      unfold processDoc
      by_cases hv : anyValid (priceSetOf doc) = true
      · rw [if_pos hv]; rfl
      · rw [if_neg hv]; rfl
  | timeout => rfl
  | requestError d => rfl

theorem errCodeOK_runOne (now : String)
    (env : String → String → EntityBehavior) (n c : String) :
    errCodeOK (runOne now env n c) = true := by
  cases henv : env n c with
  | responds r =>
    rw [runOne_responds now env n c r henv]
    exact errCodeOK_fetch_province_price n c now r
  | raises e => rw [runOne_raises now env n c e henv]; rfl

theorem all_insert {α : Type} (P : String × α → Bool) (d : List (String × α))
    (k : String) (v : α) (hd : d.all P = true) (hv : P (k, v) = true) :
    (dictInsertD d k v).all P = true := by
  induction d with
  | nil => simp [dictInsertD, hv]
  | cons p rest ih =>
    simp only [List.all_cons, Bool.and_eq_true] at hd
    by_cases h1 : p.1 = k
    · simp [dictInsertD, h1, hv, hd.2]
    · simp [dictInsertD, h1, hd.1, ih hd.2]

theorem foldl_all_errCodeOK (now : String)
    (env : String → String → EntityBehavior) (l : List (String × String))
    (acc : List (String × ProvinceData) × ℕ)
    (h : acc.1.all (fun p => errCodeOK p.2) = true) :
    ((l.foldl (fetchAllStep now env) acc).1.all (fun p => errCodeOK p.2)) =
      true := by
  induction l generalizing acc with
  | nil => exact h
  | cons p rest ih =>
    rw [List.foldl_cons]
    exact ih _ (all_insert _ _ _ _ h (errCodeOK_runOne now env p.1 p.2))

/-! Claim theorems. -/

/-- C1: for every collected outcome set with total ≥ 1 (a nonempty province
mapping, whose names are distinct since the source's province mapping is a
Python dict), the report status is exactly "error" when the number of
Success outcomes is 0, "success" when the number of Failure outcomes is 0,
and "partial_success" otherwise; the derivation is a total function of the
outcome set. -/
theorem C1_report_status (provinces : List (String × String))
    (env : String → String → EntityBehavior) (now : String)
    (hne : provinces ≠ []) (hnd : (provinces.map Prod.fst).Nodup) :
    (fetch_all_prices provinces env now).status =
      (if countSuccessData (fetch_all_prices provinces env now).data = 0 then
        "error"
      else if countErrorData (fetch_all_prices provinces env now).data = 0 then
        "success"
      else "partial_success") := by
  rw [fetch_all_prices_nodup_eq provinces env now hnd]
  rw [create_final_output_status, create_final_output_data]
  set s := provinces.countP (fun p => pdIsSuccess (runOne now env p.1 p.2))
    with hs
  have hsucc : countSuccessData
      (provinces.map (fun p => (p.1, runOne now env p.1 p.2))) = s := by
    unfold countSuccessData
    rw [List.countP_map, hs]
    rfl
  have herr : countErrorData
      (provinces.map (fun p => (p.1, runOne now env p.1 p.2))) =
      provinces.length - s := by
    unfold countErrorData
    rw [List.countP_map]
    have hlen := List.length_eq_countP_add_countP
      (fun p : String × String => pdIsSuccess (runOne now env p.1 p.2))
      provinces
    have hcongr : List.countP
        ((fun p : String × ProvinceData => pdStatus p.2 == "error") ∘
          fun p : String × String => (p.1, runOne now env p.1 p.2)) provinces =
        List.countP
          (fun p : String × String =>
            decide (¬pdIsSuccess (runOne now env p.1 p.2) = true)) provinces := by
      apply List.countP_congr
      intro p _
      simp only [Function.comp_apply]
      cases runOne now env p.1 p.2 <;> simp [pdStatus, pdIsSuccess]
    rw [hcongr]
    omega
  have hslen : s ≤ provinces.length := List.countP_le_length _
  rw [hsucc, herr]
  rcases Nat.eq_zero_or_pos s with h0 | h0
  · have hno : ¬(0 < s ∧ s < provinces.length) := by omega
    simp [h0, hno]
  · have hlenpos : 0 < provinces.length := List.length_pos.mpr hne
    have hsne : s ≠ 0 := Nat.pos_iff_ne_zero.mp h0
    rcases Nat.lt_or_ge s provinces.length with hlt | hge
    · have h1 : 0 < s ∧ s < provinces.length := ⟨h0, hlt⟩
      have h2 : provinces.length - s ≠ 0 := by omega
      simp [h1, h2, hsne]
    · have h1 : ¬(0 < s ∧ s < provinces.length) := by omega
      have h2 : provinces.length - s = 0 := by omega
      simp [h1, h2, hsne, h0]
      exact hge

/-- C1 witness: a concrete three-province mixed run. -/
theorem C1_report_status_witness :
    provinces3 ≠ [] ∧ (provinces3.map Prod.fst).Nodup ∧
      (fetch_all_prices provinces3 envMixed "T").status =
        (if countSuccessData (fetch_all_prices provinces3 envMixed "T").data =
            0 then
          "error"
        else if countErrorData
            (fetch_all_prices provinces3 envMixed "T").data = 0 then
          "success"
        else "partial_success") :=
  ⟨by decide, by decide,
    C1_report_status provinces3 envMixed "T" (by decide) (by decide)⟩

/-- C2: for every province mapping given to the run, the produced report's
data mapping has exactly the key set of the mapping — its keys are distinct,
every province name appears, and no extra keys appear; each value is one
Outcome (a success or an error dictionary). -/
theorem C2_data_completeness (provinces : List (String × String))
    (env : String → String → EntityBehavior) (now : String) :
    (((fetch_all_prices provinces env now).data.map Prod.fst).Nodup ∧
        ∀ k, k ∈ (fetch_all_prices provinces env now).data.map Prod.fst ↔
          k ∈ provinces.map Prod.fst) ∧
      ∀ p ∈ (fetch_all_prices provinces env now).data,
        pdStatus p.2 = "success" ∨ pdStatus p.2 = "error" := by
  have hdata : (fetch_all_prices provinces env now).data =
      (provinces.foldl (fetchAllStep now env) ([], 0)).1 := rfl
  refine ⟨⟨?_, ?_⟩, ?_⟩
  · rw [hdata]
    exact foldl_keys_nodup now env provinces ([], 0) (by simp)
  · intro k
    rw [hdata, foldl_keys_mem]
    simp
  · intro p _
    cases p.2 with
    | success d => left; rfl
    | error d => right; rfl

/-- C4 (amended): for every nonempty run, the report statistics satisfy
successCount + errorCount = total with successCount ≤ total, and the success
rate equals successCount / total * 100 rounded to 2 decimal places (the
source rounds to 2, not 1). -/
theorem C4_statistics (provinces : List (String × String))
    (env : String → String → EntityBehavior) (now : String)
    (hne : provinces ≠ []) :
    ((fetch_all_prices provinces env now).statistics.success_count : ℤ) +
        (fetch_all_prices provinces env now).statistics.error_count =
        ((fetch_all_prices provinces env now).statistics.total_provinces : ℤ) ∧
      (fetch_all_prices provinces env now).statistics.success_rate =
        pyRound 2
          (((fetch_all_prices provinces env now).statistics.success_count : ℚ) /
            ((fetch_all_prices provinces env now).statistics.total_provinces :
              ℚ) * 100) ∧
      (fetch_all_prices provinces env now).statistics.success_count ≤
        (fetch_all_prices provinces env now).statistics.total_provinces := by
  rw [fetch_all_prices_eq, create_final_output_statistics]
  refine ⟨by ring, rfl, ?_⟩
  have := foldl_count_le now env provinces ([], 0)
  simpa using this

/-- C4 witness: the concrete three-province mixed run. -/
theorem C4_statistics_witness :
    provinces3 ≠ [] ∧
      ((fetch_all_prices provinces3 envMixed "T").statistics.success_count :
          ℤ) + (fetch_all_prices provinces3 envMixed "T").statistics.error_count
        = ((fetch_all_prices provinces3 envMixed "T").statistics.total_provinces
            : ℤ) :=
  ⟨by decide, (C4_statistics provinces3 envMixed "T" (by decide)).1⟩

/-- C4 counterexample: on a run with 2 successes out of 3 the recorded rate
is 66.67 (two decimal places), not the one-decimal rounding 66.7 the claim
states. -/
theorem C4_counterexample :
    (fetch_all_prices provinces3 envMixed "T").statistics.success_rate ≠
      pyRound 1
        (((fetch_all_prices provinces3 envMixed "T").statistics.success_count :
            ℚ) /
          ((fetch_all_prices provinces3 envMixed "T").statistics.total_provinces
            : ℚ) * 100) := by
  have h2 : (fetch_all_prices provinces3 envMixed "T").statistics.success_count
      = 2 := by
    rw [fetch_all_prices_eq, create_final_output_statistics]
    show (provinces3.foldl (fetchAllStep "T" envMixed) ([], 0)).2 = 2
    decide
  have h3 : (fetch_all_prices provinces3 envMixed
      "T").statistics.total_provinces = 3 := by
    rw [fetch_all_prices_eq, create_final_output_statistics]
    rfl
  have hrate : (fetch_all_prices provinces3 envMixed
      "T").statistics.success_rate = pyRound 2 ((2 : ℚ) / 3 * 100) := by
    rw [fetch_all_prices_eq, create_final_output_statistics]
    show pyRound 2
        (((provinces3.foldl (fetchAllStep "T" envMixed) ([], 0)).2 : ℚ) /
          (provinces3.length : ℚ) * 100) = _
    rw [show (provinces3.foldl (fetchAllStep "T" envMixed) ([], 0)).2 = 2 from
      by decide, show provinces3.length = 3 from rfl]
    exact congrArg (pyRound 2) (by norm_num)
  rw [hrate, h2, h3]
  have e1 : pyRound 2 ((2 : ℚ) / 3 * 100) = 6667 / 100 := by
    unfold pyRound roundHalfEven
    rw [show ((2 : ℚ) / 3 * 100 * 10 ^ 2) = 20000 / 3 from by norm_num]
    rw [show ⌊(20000 / 3 : ℚ)⌋ = 6666 from by rw [Int.floor_eq_iff]; norm_num]
    rw [if_neg (by norm_num), if_pos (by norm_num)]
    norm_num
  have e2 : pyRound 1 (((2 : ℕ) : ℚ) / ((3 : ℕ) : ℚ) * 100) = 667 / 10 := by
    rw [show (((2 : ℕ) : ℚ) / ((3 : ℕ) : ℚ) * 100) = (2 : ℚ) / 3 * 100 from
      by norm_num]
    unfold pyRound roundHalfEven
    rw [show ((2 : ℚ) / 3 * 100 * 10 ^ 1) = 2000 / 3 from by norm_num]
    rw [show ⌊(2000 / 3 : ℚ)⌋ = 666 from by rw [Int.floor_eq_iff]; norm_num]
    rw [if_neg (by norm_num), if_pos (by norm_num)]
    norm_num
  rw [e1, e2]
  norm_num

/-- C10: every Failure outcome in any run's report data, regardless of which
failure kind produced it, carries the single fixed error code string
"FETCH_FAILED". -/
theorem C10_error_code_invariant (provinces : List (String × String))
    (env : String → String → EntityBehavior) (now : String) :
    (fetch_all_prices provinces env now).data.all
      (fun p => errCodeOK p.2) = true := by
  have hdata : (fetch_all_prices provinces env now).data =
      (provinces.foldl (fetchAllStep now env) ([], 0)).1 := rfl
  rw [hdata]
  exact foldl_all_errCodeOK now env provinces ([], 0) rfl

theorem specParsedPositive_zero : specParsedPositive "0" = false := by
  unfold specParsedPositive
  rw [show specFirstDecimal "0".data = some "0" from by decide]
  show (match pyFloat? "0" with
    | some q => decide (0 < q)
    | none => false) = false
  rw [show pyFloat? "0" =
      some (((0 : ℕ) : ℚ) + ((0 : ℕ) : ℚ) / (10 : ℚ) ^ (0 : ℕ)) from rfl]
  rw [decide_eq_false_iff_not]
  norm_num

/-- C3 counterexample: a fetched markup whose only grade candidate is the
zero-valued string "0" is classified as success by the code, although no
grade has a parsed strictly positive price value, contradicting the claim
that such markups yield an extraction Failure. -/
theorem C3_counterexample :
    pdStatus (fetch_province_price "河北" "hebei" (.ok 200 docZero) "T") =
        "success" ∧
      specAnyPositive (priceSetOf docZero) = false := by
  refine ⟨by decide, ?_⟩
  unfold specAnyPositive
  rw [show (priceSetOf docZero).p92 = "0" from by decide,
    show (priceSetOf docZero).p95 = "--" from by decide,
    show (priceSetOf docZero).p98 = "--" from by decide,
    show (priceSetOf docZero).p0 = "--" from by decide,
    specParsedPositive_zero,
    show specParsedPositive "--" = false from by decide]
  rfl

/-- C3 (amended): extraction is classified as success iff at least one
grade's candidate entry is set (differs from the unset marker "--"); when
every grade is unset the result is the uniform error dictionary with the
message 未解析到油价数据 even though the fetch returned status 200.  No
parsing or positivity check is involved: a zero-valued or unparseable but
present candidate still classifies as success. -/
theorem C3_success_iff_candidate (name code now : String) (doc : FetchedDoc) :
    (pdStatus (fetch_province_price name code (.ok 200 doc) now) = "success" ↔
        anyValid (priceSetOf doc) = true) ∧
      (anyValid (priceSetOf doc) = false →
        fetch_province_price name code (.ok 200 doc) now =
          _create_error_data name code "未解析到油价数据" now) := by
  rw [fetch_province_price_ok, if_neg (by decide)]
  unfold processDoc
  by_cases hv : anyValid (priceSetOf doc) = true
  · rw [if_pos hv]
    exact ⟨⟨fun _ => hv, fun _ => rfl⟩,
      fun hf => by rw [hv] at hf; exact Bool.noConfusion hf⟩
  · rw [if_neg hv]
    refine ⟨⟨fun hc => ?_, fun hc => absurd hc hv⟩, fun _ => rfl⟩
    have he : pdStatus
        (_create_error_data name code "未解析到油价数据" now) = "error" := rfl
    rw [he] at hc
    exact absurd hc (by decide)

/-- C3 witness: on a page with no grade candidates the classification is the
uniform extraction error. -/
theorem C3_success_iff_candidate_witness :
    anyValid (priceSetOf docEmpty) = false ∧
      fetch_province_price "X" "x" (.ok 200 docEmpty) "T" =
        _create_error_data "X" "x" "未解析到油价数据" "T" :=
  ⟨by decide, (C3_success_iff_candidate "X" "x" "T" docEmpty).2 (by decide)⟩

/-- C5 counterexample: the structured lookup yields grade 92, the fallback
texts would yield "8.31元" for grade 95, yet the reported grade 95 stays
unset — so strategies are not attempted independently per grade. -/
theorem C5_counterexample :
    (priceSetOf docStructAndFallback).p95 = "--" ∧
      dictGet (method2Entries docStructAndFallback.fallbackTexts) "95" =
        some "8.31元" := ⟨by decide, by decide⟩

/-- C5 (amended): the strategies are attempted in order but globally, not
per grade: any grade present in the structured lookup is reported with its
structured value (in particular a structured value for grade 92 wins over
whatever the fallback pattern would yield for 92), and the pattern fallback
runs only when the structured lookup yields no grade at all. -/
theorem C5_strategy_precedence :
    (∀ (doc : FetchedDoc) (k v : String),
        dictGet (method1Entries doc.youjiaDls) k = some v →
          dictGet (entriesOf doc) k = some v) ∧
      ∀ doc : FetchedDoc, method1Entries doc.youjiaDls = [] →
        entriesOf doc = method2Entries doc.fallbackTexts := by
  constructor
  · intro doc k v h
    show dictGet
      (if method1Entries doc.youjiaDls = [] then
        method2Entries doc.fallbackTexts
      else method1Entries doc.youjiaDls) k = some v
    rw [if_neg (dictGet_ne_nil _ _ _ h)]
    exact h
  · intro doc h
    show (if method1Entries doc.youjiaDls = [] then
        method2Entries doc.fallbackTexts
      else method1Entries doc.youjiaDls) = method2Entries doc.fallbackTexts
    rw [if_pos h]

/-- C5 witness: the structured value "7.82元" for grade 92 is the one
reported. -/
theorem C5_strategy_precedence_witness :
    dictGet (method1Entries docStructAndFallback.youjiaDls) "92" =
        some "7.82元" ∧
      dictGet (entriesOf docStructAndFallback) "92" = some "7.82元" :=
  ⟨by decide,
    C5_strategy_precedence.1 docStructAndFallback "92" "7.82元" (by decide)⟩

theorem scanGroup_shape :
    ∀ (l : List Char) (g : String), scanGroup l = some g →
      g.data ≠ [] ∧ g.data.all isNumChar = true := by
  intro l
  induction l with
  | nil => intro g h; simp [scanGroup] at h
  | cons c rest ih =>
    intro g h
    simp only [scanGroup] at h
    split at h
    · injection h with h
      subst h
      constructor
      · simpa using (by assumption :
          (c :: rest).takeWhile isNumChar ≠ [] ∧
            (((c :: rest).dropWhile isNumChar).headD ' ' == '元') = true).1
      · exact List.all_takeWhile
    · split at h
      · cases h
      · exact ih g h

theorem searchPricePat_shape (pre : List Char) :
    ∀ (l : List Char) (g : String), searchPricePat pre l = some g →
      g.data ≠ [] ∧ g.data.all isNumChar = true := by
  intro l
  induction l with
  | nil => intro g h; simp [searchPricePat] at h
  | cons c rest ih =>
    intro g h
    simp only [searchPricePat] at h
    split at h
    · split at h
      · injection h with h
        subst h
        exact scanGroup_shape _ _ (by assumption)
      · exact ih g h
    · exact ih g h

theorem method1Entries_from (dls : List (Option String × Option String)) :
    ∀ (k v : String), dictGet (method1Entries dls) k = some v →
      ∃ dt dd, (some dt, some dd) ∈ dls ∧ v = pyStrip dd := by
  have haux : ∀ (l : List (Option String × Option String))
      (acc : List (String × String)) (k v : String),
      dictGet (l.foldl
        (fun entries dl =>
          match dl.1, dl.2 with
          | some dt, some dd =>
            match firstDigitRun (pyStrip dt).data with
            | some oil_key => dictInsertD entries oil_key (pyStrip dd)
            | none => entries
          | _, _ => entries)
        acc) k = some v →
      dictGet acc k = some v ∨
        ∃ dt dd, (some dt, some dd) ∈ l ∧ v = pyStrip dd := by
    intro l
    induction l with
    | nil => intro acc k v h; exact Or.inl h
    | cons dl rest ih =>
      intro acc k v h
      rw [List.foldl_cons] at h
      rcases ih _ k v h with h' | ⟨dt, dd, hm, hv⟩
      · rcases dl with ⟨odt, odd⟩
        cases odt with
        | none => exact Or.inl h'
        | some dt =>
          cases odd with
          | none => exact Or.inl h'
          | some dd =>
            dsimp only at h'
            rcases hfd : firstDigitRun (pyStrip dt).data with _ | key
            · rw [hfd] at h'
              exact Or.inl h'
            · rw [hfd] at h'
              rw [dictGet_insert] at h'
              by_cases hk : k = key
              · rw [if_pos hk] at h'
                injection h' with h'
                exact Or.inr ⟨dt, dd, List.mem_cons_self _ _, h'.symm⟩
              · rw [if_neg hk] at h'
                exact Or.inl h'
      · exact Or.inr ⟨dt, dd, List.mem_cons_of_mem _ hm, hv⟩
  intro k v h
  rcases haux dls [] k v h with h' | h'
  · rw [dictGet_nil] at h'
    cases h'
  · exact h'

theorem method2Element_from (text : String) (acc : List (String × String))
    (k v : String) (h : dictGet (method2Element acc text) k = some v) :
    dictGet acc k = some v ∨
      ∃ g, v = g ++ "元" ∧ g.data ≠ [] ∧ g.data.all isNumChar = true := by
  unfold method2Element at h
  revert h
  generalize pricePatterns = pats
  induction pats generalizing acc with
  | nil => intro h; exact Or.inl h
  | cons pk rest ih =>
    intro h
    rw [List.foldl_cons] at h
    rcases ih _ h with h' | hshape
    · rcases hs : searchPricePat pk.1 text.data with _ | g
      · rw [hs] at h'
        exact Or.inl h'
      · rw [hs] at h'
        dsimp only at h'
        by_cases hd : dictGet acc pk.2 = none
        · rw [if_pos hd] at h'
          rw [dictGet_insert] at h'
          by_cases hk : k = pk.2
          · rw [if_pos hk] at h'
            injection h' with h'
            exact Or.inr ⟨g, h'.symm, searchPricePat_shape pk.1 text.data g hs⟩
          · rw [if_neg hk] at h'
            exact Or.inl h'
        · rw [if_neg hd] at h'
          exact Or.inl h'
    · exact Or.inr hshape

theorem method2Entries_from (texts : List String) :
    ∀ (k v : String), dictGet (method2Entries texts) k = some v →
      ∃ g, v = g ++ "元" ∧ g.data ≠ [] ∧ g.data.all isNumChar = true := by
  have haux : ∀ (l : List String) (acc : List (String × String))
      (k v : String), dictGet (l.foldl method2Element acc) k = some v →
      dictGet acc k = some v ∨
        ∃ g, v = g ++ "元" ∧ g.data ≠ [] ∧ g.data.all isNumChar = true := by
    intro l
    induction l with
    | nil => intro acc k v h; exact Or.inl h
    | cons t rest ih =>
      intro acc k v h
      rw [List.foldl_cons] at h
      rcases ih _ k v h with h' | hshape
      · exact method2Element_from t acc k v h'
      · exact Or.inr hshape
  intro k v h
  rcases haux texts [] k v h with h' | h'
  · rw [dictGet_nil] at h'
    cases h'
  · exact h'

/-- C6 counterexample: a structured candidate with no decimal-looking
substring at all is recorded verbatim as the grade's price — not parsed, and
not replaced by the unset marker — contradicting the claim that a parse
failure yields the unset marker. -/
theorem C6_counterexample :
    (priceSetOf docVerbatim).p92 = "价格未知" ∧
      specFirstDecimal "价格未知".data = none ∧ "价格未知" ≠ "--" :=
  ⟨by decide, by decide, by decide⟩

/-- C6 (amended): candidate prices are recorded as strings with no numeric
parsing: a structured candidate is recorded verbatim (stripped), a fallback
candidate is the captured first `[\d.]+` substring with 元 appended, and a
grade with no candidate is recorded as the distinct unset marker "--"
(never the number zero). -/
theorem C6_candidate_recording :
    (∀ (dls : List (Option String × Option String)) (k v : String),
        dictGet (method1Entries dls) k = some v →
          ∃ dt dd, (some dt, some dd) ∈ dls ∧ v = pyStrip dd) ∧
      (∀ (texts : List String) (k v : String),
        dictGet (method2Entries texts) k = some v →
          ∃ g, v = g ++ "元" ∧ g.data ≠ [] ∧ g.data.all isNumChar = true) ∧
      ∀ doc : FetchedDoc,
        (dictGet (entriesOf doc) "92" = none → (priceSetOf doc).p92 = "--") ∧
        (dictGet (entriesOf doc) "95" = none → (priceSetOf doc).p95 = "--") ∧
        (dictGet (entriesOf doc) "98" = none → (priceSetOf doc).p98 = "--") ∧
        (dictGet (entriesOf doc) "0" = none → (priceSetOf doc).p0 = "--") := by
  refine ⟨method1Entries_from, method2Entries_from, ?_⟩
  intro doc
  refine ⟨fun h => ?_, fun h => ?_, fun h => ?_, fun h => ?_⟩
  · show (dictGet (entriesOf doc) "92").getD "--" = "--"
    rw [h]
    rfl
  · show (dictGet (entriesOf doc) "95").getD "--" = "--"
    rw [h]
    rfl
  · show (dictGet (entriesOf doc) "98").getD "--" = "--"
    rw [h]
    rfl
  · show (dictGet (entriesOf doc) "0").getD "--" = "--"
    rw [h]
    rfl

/-- C6 witness: the fallback candidate "8.31元" for grade 95 decomposes as a
nonempty `[\d.]+` group followed by 元. -/
theorem C6_candidate_recording_witness :
    dictGet (method2Entries ["95#汽油 8.31元"]) "95" = some "8.31元" ∧
      ∃ g, "8.31元" = g ++ "元" ∧ g.data ≠ [] ∧ g.data.all isNumChar = true :=
  ⟨by decide,
    C6_candidate_recording.2.1 ["95#汽油 8.31元"] "95" "8.31元" (by decide)⟩

/-- C7 counterexample: on markup with no adjustment phrase the returned
trend's description is the fixed string 价格稳定, not the literal "stable"
the claim states. -/
theorem C7_counterexample :
    searchTrend1 (adjustmentTextOf docEmpty) = none ∧
      searchTrend2 (adjustmentTextOf docEmpty) = none ∧
      (parse_adjustment_info docEmpty).trend.description ≠ "stable" := by
  refine ⟨by decide, by decide, ?_⟩
  rw [show (parse_adjustment_info docEmpty).trend.description = "价格稳定"
    from rfl]
  decide

/-- C7 (amended): for every markup whose computed adjustment text contains
no trend phrase, the returned trend is exactly the default dictionary
(direction "stable", amount 0, description 价格稳定); and trend extraction
never affects the success/error classification of the overall extraction —
the classification is invariant under arbitrary changes to the html text and
the `#youjiaCont` divs, which are the only inputs of trend extraction. -/
theorem C7_trend_default_and_isolation :
    (∀ doc : FetchedDoc,
        searchTrend1 (adjustmentTextOf doc) = none →
        searchTrend2 (adjustmentTextOf doc) = none →
          (parse_adjustment_info doc).trend = defaultTrend) ∧
      ∀ (name code now h : String) (cd : Option (List String))
        (doc : FetchedDoc),
        pdStatus (fetch_province_price name code
            (.ok 200 { doc with html := h, youjiaContDivs := cd }) now) =
          pdStatus (fetch_province_price name code (.ok 200 doc) now) := by
  constructor
  · intro doc h1 h2
    simp only [parse_adjustment_info, h1, h2]
  · intro name code now h cd doc
    rw [fetch_province_price_ok, fetch_province_price_ok,
      if_neg (by decide), if_neg (by decide)]
    unfold processDoc
    have hps : priceSetOf { doc with html := h, youjiaContDivs := cd } =
        priceSetOf doc := rfl
    rw [hps]
    by_cases hv : anyValid (priceSetOf doc) = true
    · rw [if_pos hv, if_pos hv]
      rfl
    · rw [if_neg hv, if_neg hv]

/-- C7 witness: the empty page has no adjustment phrase and yields the
default trend. -/
theorem C7_trend_default_and_isolation_witness :
    searchTrend1 (adjustmentTextOf docEmpty) = none ∧
      searchTrend2 (adjustmentTextOf docEmpty) = none ∧
      (parse_adjustment_info docEmpty).trend = defaultTrend :=
  ⟨by decide, by decide,
    C7_trend_default_and_isolation.1 docEmpty (by decide) (by decide)⟩

/-- C8: a response whose status is not 200 yields the uniform error
dictionary carrying that status in its message, a timeout yields the 请求超时
error, any other request exception yields the 网络请求失败 error — in all
three cases the outcome's status is "error", never "success" — and a status
200 response proceeds to extraction on the fetched document unmodified. -/
theorem C8_fetch_classification (name code now detail : String) (st : ℕ)
    (doc : FetchedDoc) (hst : st ≠ 200) :
    fetch_province_price name code (.ok st doc) now =
        _create_error_data name code ("HTTP状态码: " ++ toString st) now ∧
      fetch_province_price name code .timeout now =
        _create_error_data name code "请求超时" now ∧
      fetch_province_price name code (.requestError detail) now =
        _create_error_data name code ("网络请求失败: " ++ detail) now ∧
      pdStatus (fetch_province_price name code (.ok st doc) now) = "error" ∧
      pdStatus (fetch_province_price name code .timeout now) = "error" ∧
      pdStatus (fetch_province_price name code (.requestError detail) now) =
        "error" ∧
      ∀ d2 : FetchedDoc, fetch_province_price name code (.ok 200 d2) now =
        processDoc name code d2 now := by
  have h1 : fetch_province_price name code (.ok st doc) now =
      _create_error_data name code ("HTTP状态码: " ++ toString st) now := by
    rw [fetch_province_price_ok, if_pos hst]
  refine ⟨h1, fetch_province_price_timeout name code now,
    fetch_province_price_requestError name code now detail, ?_, rfl, rfl, ?_⟩
  · rw [h1]
    rfl
  · intro d2
    rw [fetch_province_price_ok, if_neg (by decide)]

/-- C8 witness: a 500 response for a concrete province. -/
theorem C8_fetch_classification_witness :
    (500 : ℕ) ≠ 200 ∧
      fetch_province_price "X" "x" (.ok 500 docEmpty) "T" =
        _create_error_data "X" "x" ("HTTP状态码: " ++ toString (500 : ℕ))
          "T" :=
  ⟨by decide,
    (C8_fetch_classification "X" "x" "T" "d" 500 docEmpty (by decide)).1⟩

/-- C9: an exception raised while processing one province is caught and
recorded as that province's Failure outcome (the 抓取异常 error dictionary)
and never terminates the run — every province of the mapping keeps exactly
the outcome of its own processing unit, which depends only on that
province's own environment behaviour, so a valid province still yields its
Success outcome regardless of another province's failure. -/
theorem C9_failure_isolation :
    (∀ (provinces : List (String × String))
        (env : String → String → EntityBehavior) (now n c : String),
        (provinces.map Prod.fst).Nodup → (n, c) ∈ provinces →
          dictGet (fetch_all_prices provinces env now).data n =
            some (runOne now env n c)) ∧
      (∀ (now : String) (env : String → String → EntityBehavior)
        (n c e : String),
        env n c = .raises e →
          runOne now env n c =
            _create_error_data n c ("抓取异常: " ++ e) now) ∧
      ∀ (now : String) (env env' : String → String → EntityBehavior)
        (n c : String),
        env n c = env' n c → runOne now env n c = runOne now env' n c := by
  refine ⟨?_, ?_, ?_⟩
  · intro provinces env now n c hnd hm
    rw [fetch_all_prices_nodup_eq provinces env now hnd,
      create_final_output_data]
    exact dictGet_map_of_nodup provinces (fun a b => runOne now env a b) n c
      hnd hm
  · intro now env n c e h
    exact runOne_raises now env n c e h
  · intro now env env' n c h
    unfold runOne
    rw [h]

/-- C9 witness: in the three-province batch where province A raises, A is
recorded with the 抓取异常 error while province B still yields its Success
outcome. -/
theorem C9_failure_isolation_witness :
    (provinces3.map Prod.fst).Nodup ∧ ("B", "b") ∈ provinces3 ∧
      dictGet (fetch_all_prices provinces3 envMixed "T").data "B" =
        some (runOne "T" envMixed "B" "b") ∧
      pdStatus (runOne "T" envMixed "B" "b") = "success" ∧
      runOne "T" envMixed "A" "a" =
        _create_error_data "A" "a" ("抓取异常: " ++ "boom") "T" :=
  ⟨by decide, by decide,
    C9_failure_isolation.1 provinces3 envMixed "T" "B" "b" (by decide)
      (by decide),
    by decide,
    C9_failure_isolation.2.1 "T" envMixed "A" "a" "boom" rfl⟩

/-- C2 witness: key-set equality instantiated on the concrete mixed run. -/
theorem C2_data_completeness_witness :
    ((fetch_all_prices provinces3 envMixed "T").data.map Prod.fst).Nodup ∧
      ("B" ∈ (fetch_all_prices provinces3 envMixed "T").data.map Prod.fst ↔
        "B" ∈ provinces3.map Prod.fst) :=
  ⟨(C2_data_completeness provinces3 envMixed "T").1.1,
    (C2_data_completeness provinces3 envMixed "T").1.2 "B"⟩
